import Mathlib

/-!
Formal model of the sandboxed execution harness and the tool discovery
engine of the mcp-code-exec repository.

The definitions below are shallow embeddings of:
  * `src/app/agent_core/harness.py`   (class ExecutionHarness)
  * `src/app/agent_core/code_executor.py` (class CodeExecutor)
  * `src/servers/discovery.py`        (class ToolDiscovery)

File contents are modelled as `List Char`, filesystem paths as lists of
path components (`List String`), and Python dictionaries as association
lists in write order with a last-write-wins lookup.
-/

set_option maxRecDepth 4096

/-! ## Generic character-list helpers (Python string operations) -/

/-- Split a character list at every occurrence of `sep` (Python `str.split(sep)`:
the separators are dropped and empty pieces are kept). -/
def splitOnChar (sep : Char) : List Char → List (List Char)
  | [] => [[]]
  | x :: xs =>
    match splitOnChar sep xs with
    | [] => [[]]
    | h :: t => if x = sep then [] :: h :: t else (x :: h) :: t

/-- Split a character list at whitespace runs, dropping empty pieces
(Python `str.split()` with no argument). -/
def wsSplit (l : List Char) : List (List Char) :=
  (splitOnChar ' ' (l.map (fun c => if c.isWhitespace then ' ' else c))).filter (· ≠ [])

/-- Python `str.strip()`: remove leading and trailing whitespace. -/
def pyStrip (l : List Char) : List Char :=
  ((l.dropWhile Char.isWhitespace).reverse.dropWhile Char.isWhitespace).reverse

/-- Python `str.lower()` restricted to ASCII case mapping. -/
def lowerL (l : List Char) : List Char := l.map Char.toLower

/-- Python `needle in haystack` substring test on strings. -/
def isSubstr (n : List Char) : List Char → Bool
  | [] => n.isEmpty
  | h@(_ :: t) => n.isPrefixOf h || isSubstr n t

/-- One step of Python `str.title()`: uppercase a letter that follows a
non-letter, lowercase a letter that follows a letter. -/
def titleAux : Bool → List Char → List Char
  | _, [] => []
  | prevAlpha, c :: rest =>
    (if c.isAlpha then (if prevAlpha then c.toLower else c.toUpper) else c)
      :: titleAux c.isAlpha rest

/-- Python `str.title()`. -/
def pyTitle (l : List Char) : List Char := titleAux false l

/-- Replace every underscore by a space (Python `s.replace('_', ' ')`). -/
def underscoresToSpaces (l : List Char) : List Char :=
  l.map (fun c => if c = '_' then ' ' else c)

/-- First line of `ls` whose stripped form is non-blank, stripped; `[]`
when every line is blank (the `next(..., '')` idiom in the source). -/
def firstNonBlankStripped : List (List Char) → List Char
  | [] => []
  | l :: rest =>
    if pyStrip l ≠ [] then pyStrip l else firstNonBlankStripped rest

/-! ## The `"""..."""` documentation-block extraction

`re.search(r'"""(.*?)"""', content, re.DOTALL)`: find the first triple
quote, then the shortest stretch up to the next triple quote. -/

/-- Does the character list begin with a triple double-quote? -/
def isTQ : List Char → Bool
  | '"' :: '"' :: '"' :: _ => true
  | _ => false

/-- Characters following the first triple quote, if one occurs. -/
def afterTQ : List Char → Option (List Char)
  | [] => none
  | l@(_ :: rest) => if isTQ l then some (l.drop 3) else afterTQ rest

/-- Characters strictly before the first triple quote, if one occurs. -/
def upToTQ : List Char → Option (List Char)
  | [] => none
  | l@(c :: rest) => if isTQ l then some [] else (upToTQ rest).map (c :: ·)

/-- Group 1 of the first `"""(.*?)"""` match in `content`, if any. -/
def extractDoc (content : List Char) : Option (List Char) :=
  match afterTQ content with
  | none => none
  | some rest => upToTQ rest

/-! ## Filesystem path model

A path is a list of components measured from the filesystem root.
`resolveComps` is `Path.resolve()` in the absence of symlinks: `..` pops a
component, `.` and empty components vanish. -/

/-- Canonicalize a component list (`Path.resolve()` without symlinks). -/
def resolveComps (p : List String) : List String :=
  p.foldl (fun acc c =>
    if c = ".." then acc.dropLast
    else if c = "." ∨ c = "" then acc
    else acc ++ [c]) []

/-- Components of a path-like string (pathlib splits its argument on `/`
and drops empty and `.` segments). -/
def pySplit (s : String) : List String :=
  ((splitOnChar '/' s.toList).filter (fun l => l ≠ [] ∧ l ≠ ['.'])).map
    (fun l => String.mk l)

/-- Rendering of an absolute path as the string `str(Path(...))` yields. -/
def pathStr (p : List String) : List Char :=
  p.foldl (fun acc c => acc ++ '/' :: c.toList) []

/-! ## Tool discovery (`src/servers/discovery.py`)

The catalog filesystem is a list of `(resolved absolute path, content)`
pairs; `root` is the resolved `servers_path`. -/

inductive DiscErr where
  | toolNotFound
  | serverNotFound
  | discoveryErr
  deriving DecidableEq, Repr

inductive DResult (α : Type) where
  | ok (a : α)
  | err (e : DiscErr)
  deriving DecidableEq, Repr

structure ToolSummary where
  name : String
  server : String
  description : List Char
  deriving DecidableEq, Repr

/-- `self.servers_path / server_name / f"{tool_name}.py"`. -/
def toolPath (root : List String) (server tool : String) : List String :=
  root ++ pySplit server ++ pySplit (tool ++ ".py")

/-- Description computed by `get_tool_summary` from the first 500
characters of the unit file (`f.read(500)` then the regex match, with the
title-cased fallback). -/
def summaryDescription (tool : String) (content : List Char) : List Char :=
  match extractDoc (content.take 500) with
  | some g => firstNonBlankStripped (splitOnChar '\n' (pyStrip g))
  | none => pyTitle (underscoresToSpaces tool.toList)

/-- `ToolDiscovery.get_tool_summary` (discovery.py lines 195-236): reject a
missing unit file with ToolNotFoundError; otherwise read the first 500
characters, take the first `"""..."""` group's first non-blank line as the
description, falling back to the title-cased tool name. -/
def getToolSummary (root : List String) (fs : List (List String × List Char))
    (server tool : String) : DResult ToolSummary :=
  match fs.lookup (resolveComps (toolPath root server tool)) with
  | none => .err .toolNotFound
  | some content =>
    .ok { name := tool, server := server,
          description := summaryDescription tool content }

/-- `ToolDiscovery.get_tool_definition` (discovery.py lines 238-265): check
only that the unit file exists, then return its full text.  No containment
check is performed on the assembled path. -/
def getToolDefinition (root : List String) (fs : List (List String × List Char))
    (server tool : String) : DResult (List Char) :=
  match fs.lookup (resolveComps (toolPath root server tool)) with
  | none => .err .toolNotFound
  | some c => .ok c

/-- `ToolDiscovery.read_file` (discovery.py lines 267-300): resolve
`servers_path / file_path` and require that its string form *starts with*
the string form of the resolved catalog root, then require existence. -/
def readFile (root : List String) (fs : List (List String × List Char))
    (fp : String) : DResult (List Char) :=
  let full := resolveComps (root ++ pySplit fp)
  if (pathStr (resolveComps root)).isPrefixOf (pathStr full) then
    match fs.lookup full with
    | some c => .ok c
    | none => .err .discoveryErr
  else .err .discoveryErr

/-! ## The restricted symbol table

Values bound in an execution namespace.  `prim n` is the host primitive
named `n`; `rawOpenV` is the unrestricted builtin `open`; `safeOpenV` is
the workspace-gated `ExecutionHarness._safe_open`; `builtinsOf t` is the
curated builtins dictionary assembled by the corresponding
`_get_safe_builtins`; `rawBuiltinsModule` is the raw `builtins` namespace
object itself; `module n` is an imported module object and `obj n` some
other host object (a class or a singleton). -/

inductive BTable where
  | executorTable
  | harnessTable
  deriving DecidableEq, Repr

inductive PyVal where
  | prim (name : String)
  | builtinsOf (t : BTable)
  | rawBuiltinsModule
  | safeOpenV
  | rawOpenV
  | module (name : String)
  | obj (name : String)
  | strV (s : String)
  | noneV
  deriving DecidableEq, Repr

/-- A Python dict as its write history; lookup returns the LAST write. -/
def dictGet : List (String × PyVal) → String → Option PyVal
  | [], _ => none
  | (k', v) :: rest, k =>
    match dictGet rest k with
    | some v' => some v'
    | none => if k' = k then some v else none

/-- `CodeExecutor._get_safe_builtins` (code_executor.py lines 208-254).
Note the `'open': open` entry: the raw builtin, not a gated wrapper. -/
def safeBuiltinsExecutor : List (String × PyVal) :=
  [("print", .prim "print"), ("len", .prim "len"), ("range", .prim "range"),
   ("str", .prim "str"), ("int", .prim "int"), ("float", .prim "float"),
   ("bool", .prim "bool"), ("list", .prim "list"), ("dict", .prim "dict"),
   ("set", .prim "set"), ("tuple", .prim "tuple"), ("abs", .prim "abs"),
   ("min", .prim "min"), ("max", .prim "max"), ("sum", .prim "sum"),
   ("sorted", .prim "sorted"), ("enumerate", .prim "enumerate"),
   ("zip", .prim "zip"), ("map", .prim "map"), ("filter", .prim "filter"),
   ("round", .prim "round"), ("isinstance", .prim "isinstance"),
   ("hasattr", .prim "hasattr"), ("getattr", .prim "getattr"),
   ("setattr", .prim "setattr"), ("type", .prim "type"),
   ("open", .rawOpenV),
   ("ValueError", .prim "ValueError"), ("TypeError", .prim "TypeError"),
   ("KeyError", .prim "KeyError"), ("IndexError", .prim "IndexError"),
   ("Exception", .prim "Exception"),
   ("__import__", .prim "__import__"),
   ("__name__", .strV "__main__"), ("__doc__", .noneV)]

/-- `ExecutionHarness._get_safe_builtins` (harness.py lines 291-336).
Here `'open'` is bound to the workspace-gated `self._safe_open`. -/
def safeBuiltinsHarness : List (String × PyVal) :=
  [("str", .prim "str"), ("int", .prim "int"), ("float", .prim "float"),
   ("bool", .prim "bool"), ("list", .prim "list"), ("dict", .prim "dict"),
   ("set", .prim "set"), ("tuple", .prim "tuple"), ("bytes", .prim "bytes"),
   ("bytearray", .prim "bytearray"),
   ("print", .prim "print"), ("len", .prim "len"), ("range", .prim "range"),
   ("abs", .prim "abs"), ("min", .prim "min"), ("max", .prim "max"),
   ("sum", .prim "sum"), ("sorted", .prim "sorted"),
   ("reversed", .prim "reversed"), ("enumerate", .prim "enumerate"),
   ("zip", .prim "zip"), ("map", .prim "map"), ("filter", .prim "filter"),
   ("all", .prim "all"), ("any", .prim "any"), ("round", .prim "round"),
   ("pow", .prim "pow"), ("divmod", .prim "divmod"),
   ("isinstance", .prim "isinstance"), ("issubclass", .prim "issubclass"),
   ("hasattr", .prim "hasattr"), ("getattr", .prim "getattr"),
   ("setattr", .prim "setattr"), ("delattr", .prim "delattr"),
   ("type", .prim "type"), ("id", .prim "id"),
   ("callable", .prim "callable"), ("dir", .prim "dir"),
   ("vars", .prim "vars"),
   ("open", .safeOpenV),
   ("Exception", .prim "Exception"),
   ("ValueError", .prim "ValueError"), ("TypeError", .prim "TypeError"),
   ("KeyError", .prim "KeyError"), ("IndexError", .prim "IndexError"),
   ("AttributeError", .prim "AttributeError"),
   ("RuntimeError", .prim "RuntimeError"),
   ("ImportError", .prim "ImportError"), ("OSError", .prim "OSError"),
   ("format", .prim "format"), ("repr", .prim "repr"),
   ("ascii", .prim "ascii"), ("ord", .prim "ord"), ("chr", .prim "chr"),
   ("hex", .prim "hex"), ("oct", .prim "oct"), ("bin", .prim "bin"),
   ("hash", .prim "hash"), ("slice", .prim "slice"),
   ("complex", .prim "complex"),
   ("__import__", .prim "__import__")]

/-- The host interpreter: which module names `__import__` can load, and
whether the computed servers directory exists on disk. -/
structure Host where
  importable : String → Bool
  serversPathExists : Bool

/-- `__import__(m)`: importing the name `builtins` yields the raw builtins
namespace object; any other importable name yields that module object. -/
def importValue (m : String) : PyVal :=
  if m = "builtins" then .rawBuiltinsModule else .module m

/-- Bindings contributed when a module is importable, none otherwise
(the `try: ... except ImportError: pass` pattern). -/
def condBind (c : Bool) (l : List (String × PyVal)) : List (String × PyVal) :=
  if c then l else []

/-- One iteration of the allowed-modules loop in
`ExecutionHarness._prepare_environment` (harness.py lines 254-274). -/
def harnessBlock (h : Host) (m : String) : List (String × PyVal) :=
  if m = "pandas" then
    condBind (h.importable "pandas")
      [("pd", importValue "pandas"), ("pandas", importValue "pandas")]
  else if m = "numpy" then
    condBind (h.importable "numpy")
      [("np", importValue "numpy"), ("numpy", importValue "numpy")]
  else if m = "pathlib" then
    condBind (h.importable "pathlib")
      [("Path", .obj "pathlib.Path"), ("pathlib", importValue "pathlib")]
  else if m = "asyncio" then
    condBind (h.importable "asyncio") [("asyncio", importValue "asyncio")]
  else
    condBind (h.importable m) [(m, importValue m)]

/-- The whole allowed-modules loop of the harness, in iteration order. -/
def harnessModuleBindings (h : Host) (l : List String) : List (String × PyVal) :=
  l.foldr (fun m acc => harnessBlock h m ++ acc) []

/-- `ExecutionHarness._prepare_environment` (harness.py lines 241-289):
the namespace handed to `exec`, as its dict write history. -/
def harnessEnv (allowed : List String) (h : Host) : List (String × PyVal) :=
  [("__builtins__", .builtinsOf .harnessTable), ("__name__", .strV "__main__")]
    ++ harnessModuleBindings h allowed
    ++ [("tool_discovery", .obj "tool_discovery"), ("mcp_client", .obj "mcp_client")]

/-- The fixed `ALLOWED_IMPORTS` frozenset of `src/app/config.py`, with the
bindings each importable member contributes in
`CodeExecutor._prepare_environment` (code_executor.py lines 127-179). -/
def executorImportPlan : List (String × List (String × PyVal)) :=
  [("typing", [("typing", importValue "typing")]),
   ("json", [("json", importValue "json")]),
   ("datetime", [("datetime", importValue "datetime")]),
   ("pandas", [("pd", importValue "pandas"), ("pandas", importValue "pandas")]),
   ("numpy", [("np", importValue "numpy"), ("numpy", importValue "numpy")]),
   ("re", [("re", importValue "re")]),
   ("math", [("math", importValue "math")]),
   ("statistics", [("statistics", importValue "statistics")]),
   ("requests", [("requests", importValue "requests")]),
   ("pytz", [("pytz", importValue "pytz")]),
   ("timezonefinder", [("timezonefinder", importValue "timezonefinder"),
      ("TimezoneFinder", .obj "timezonefinder.TimezoneFinder")]),
   ("os", [("os", importValue "os")]),
   ("sys", [("sys", importValue "sys")]),
   ("pathlib", [("pathlib", importValue "pathlib"), ("Path", .obj "pathlib.Path")]),
   ("collections", [("collections", importValue "collections")])]

/-- Execute an import plan against a host. -/
def bindPlan (h : Host) (plan : List (String × List (String × PyVal))) :
    List (String × PyVal) :=
  plan.foldr (fun mb acc => condBind (h.importable mb.1) mb.2 ++ acc) []

/-- `CodeExecutor._prepare_environment` (code_executor.py lines 114-206):
the namespace handed to `exec`, as its dict write history. -/
def executorEnv (h : Host) : List (String × PyVal) :=
  [("__builtins__", .builtinsOf .executorTable)]
    ++ bindPlan h executorImportPlan
    ++ [("mcp_client", .obj "mcp_client"),
        ("mcp_client_wrapper", .module "mcp_client_wrapper"),
        ("tool_discovery", .obj "tool_discovery")]

/-! ## Process-global interpreter state touched while preparing an
environment (`sys.path` insertion, `sys.modules` registration). -/

structure PyGlobal where
  sysPath : List String
  sysModules : List String
  deriving DecidableEq, Repr

/-- The string form of the servers directory computed from `__file__`. -/
def serversDirStr : String := "src/servers"

/-- `ExecutionHarness._prepare_environment` with its effect on the
process-global state (harness.py lines 276-279). -/
def harnessPrepareEnv (allowed : List String) (h : Host) (g : PyGlobal) :
    List (String × PyVal) × PyGlobal :=
  (harnessEnv allowed h,
   { g with sysPath :=
      if h.serversPathExists && !(g.sysPath.contains serversDirStr)
      then serversDirStr :: g.sysPath else g.sysPath })

/-- `CodeExecutor._prepare_environment` with its effect on the
process-global state (code_executor.py lines 186-199): it registers the
`mcp_client_wrapper` module in `sys.modules` and may extend `sys.path`. -/
def executorPrepareEnv (h : Host) (g : PyGlobal) :
    List (String × PyVal) × PyGlobal :=
  (executorEnv h,
   { sysPath :=
      if h.serversPathExists && !(g.sysPath.contains serversDirStr)
      then serversDirStr :: g.sysPath else g.sysPath,
     sysModules :=
      if g.sysModules.contains "mcp_client_wrapper" then g.sysModules
      else "mcp_client_wrapper" :: g.sysModules })

/-! ## File-open semantics

A filesystem is the list of resolved paths of existing files.  `rawOpen`
is the unrestricted builtin `open`; `safeOpen` is
`ExecutionHarness._safe_open` (harness.py lines 338-368). -/

inductive OpenOutcome where
  | opened (p : List String)
  | permissionDenied
  | fileNotFound
  deriving DecidableEq, Repr

/-- Python: `'w' in mode or 'a' in mode or 'x' in mode`. -/
def isWriteMode (mode : String) : Bool :=
  mode.toList.contains 'w' || mode.toList.contains 'a' || mode.toList.contains 'x'

/-- `Path(filename).resolve()`: a relative name resolves against the
process working directory. -/
def resolveFrom (cwd : List String) (filename : String) : List String :=
  if filename.toList.head? = some '/' then resolveComps (pySplit filename)
  else resolveComps (cwd ++ pySplit filename)

/-- The unrestricted builtin `open`: no containment check of any kind.
Write modes create the file at the resolved path; read mode requires it
to exist. -/
def rawOpen (fs : List (List String)) (cwd : List String)
    (filename mode : String) : OpenOutcome × List (List String) :=
  let p := resolveFrom cwd filename
  if isWriteMode mode then (.opened p, p :: fs)
  else if fs.contains p then (.opened p, fs) else (.fileNotFound, fs)

/-- `ExecutionHarness._safe_open`: resolve, require the resolved workspace
root to be a component prefix (`Path.relative_to` succeeds), create parent
directories for write modes, then open.  On denial nothing is touched. -/
def safeOpen (ws : List String) (fs : List (List String)) (cwd : List String)
    (filename mode : String) : OpenOutcome × List (List String) :=
  let p := resolveFrom cwd filename
  if (resolveComps ws).isPrefixOf p then
    if isWriteMode mode then (.opened p, p :: fs)
    else if fs.contains p then (.opened p, fs) else (.fileNotFound, fs)
  else (.permissionDenied, fs)

/-! ## Keyword search (`ToolDiscovery._keyword_search`, discovery.py
lines 443-479)

The catalog scan (`list_servers()` then `list_tools(server)`, both
sorted) produces the entries in a fixed scan order; each entry carries the
tool name, server name, and the summary description. -/

structure CatEntry where
  name : String
  server : String
  description : List Char
  deriving DecidableEq, Repr

/-- The lowercased `f"{summary['name']} {summary['description']}"`. -/
def entryText (e : CatEntry) : List Char :=
  lowerL (e.name.toList ++ ' ' :: e.description)

/-- Relevance score: 10 on an exact phrase match, else the size of the
overlap between the query's and the text's whitespace-delimited term sets. -/
def kscore (q : List Char) (e : CatEntry) : Nat :=
  let text := entryText e
  let ql := lowerL q
  if isSubstr ql text then 10
  else ((wsSplit ql).eraseDups.filter (fun t => (wsSplit text).contains t)).length

/-- The scored candidate list in scan order, entries scoring 0 excluded
(`if score > 0: all_tools.append(...)`). -/
def keywordCollect (entries : List CatEntry) (q : List Char) :
    List (Nat × CatEntry) :=
  entries.filterMap (fun e =>
    if 0 < kscore q e then some (kscore q e, e) else none)

/-- Insert into a descending-sorted list, ahead of equal scores seen later
in the scan (the element being inserted precedes them in scan order). -/
def insertD (x : Nat × CatEntry) : List (Nat × CatEntry) → List (Nat × CatEntry)
  | [] => [x]
  | y :: ys => if x.1 < y.1 then y :: insertD x ys else x :: y :: ys

/-- Stable descending sort by score — the semantics of
`all_tools.sort(key=lambda x: x[0], reverse=True)` with Python's stable
sort. -/
def sortD : List (Nat × CatEntry) → List (Nat × CatEntry)
  | [] => []
  | x :: xs => insertD x (sortD xs)

/-- The full ranked candidate list. -/
def keywordSearchAll (entries : List CatEntry) (q : List Char) :
    List (Nat × CatEntry) :=
  sortD (keywordCollect entries q)

/-- `_keyword_search(query, top_k, ...)` up to result formatting
(`_format_results` maps over the ranked list preserving its order). -/
def keywordSearch (entries : List CatEntry) (q : List Char) (k : Nat) :
    List (Nat × CatEntry) :=
  (keywordSearchAll entries q).take k

/-! ## Execution results

`ExecutionResult` is the dictionary shape shared by both executors.
Output and error text are character lists; `timeMs` is the recorded
`execution_time_ms`. -/

structure ExecutionResult where
  success : Bool
  output : List Char
  error : Option (List Char)
  timeMs : Nat
  deriving DecidableEq, Repr

/-- How a run of the user script can end inside the `try` block. -/
inductive RunOutcome where
  | ok (out : List Char)
  | timeoutSig (out : List Char)
  | importFail (msg : List Char) (out : List Char)
  | exc (kind msg tb : List Char) (out : List Char)
  deriving DecidableEq, Repr

/-- `execute_sync_no_signal` has no timeout branch of its own. -/
inductive NoSigOutcome where
  | ok (out : List Char)
  | importFail (msg : List Char) (out : List Char)
  | exc (kind msg tb : List Char) (out : List Char)
  deriving DecidableEq, Repr

/-- `f"Execution timeout after {self.timeout_seconds} seconds"`
(harness.py lines 81 and 134). -/
def harnessTimeoutMsg (n : Nat) : List Char :=
  ("Execution timeout after " ++ toString n ++ " seconds").toList

/-- `f"Execution timeout after {self.timeout_seconds}s"`
(code_executor.py line 87). -/
def executorTimeoutMsg (n : Nat) : List Char :=
  ("Execution timeout after " ++ toString n ++ "s").toList

/-- `f"Import error: {str(e)}\nAllowed modules: {', '.join(...)}"`
(harness.py lines 138 and 219). -/
def harnessImportMsg (msg : List Char) (allowed : List String) : List Char :=
  ("Import error: ").toList ++ msg ++ ("\nAllowed modules: ").toList
    ++ (String.intercalate ", " allowed).toList

/-- `f"Import error: {str(e)}. Only allowed imports: {ALLOWED_IMPORTS}"`
(code_executor.py line 91). -/
def executorImportMsg (msg allowedRepr : List Char) : List Char :=
  ("Import error: ").toList ++ msg ++ (". Only allowed imports: ").toList
    ++ allowedRepr

/-- `f"{type(e).__name__}: {str(e)}\n{traceback.format_exc()}"`
(harness.py lines 142 and 223, code_executor.py line 95). -/
def genericMsg (kind msg tb : List Char) : List Char :=
  kind ++ (": ").toList ++ msg ++ '\n' :: tb

/-- Append captured stderr under the `[STDERR]` marker when non-empty
(the `if stderr_output:` epilogue shared by all synchronous paths). -/
def addStderr (out stderr : List Char) : List Char :=
  if stderr = [] then out else out ++ ("\n[STDERR]\n").toList ++ stderr

/-- Result assembly of `ExecutionHarness.execute_sync`
(harness.py lines 85-159). -/
def harnessSyncResult (n : Nat) (allowed : List String) (o : RunOutcome)
    (stderr : List Char) (elapsed : Nat) : ExecutionResult :=
  let base : ExecutionResult :=
    match o with
    | .ok out => { success := true, output := out, error := none, timeMs := elapsed }
    | .timeoutSig out =>
      { success := false, output := out, error := some (harnessTimeoutMsg n),
        timeMs := elapsed }
    | .importFail msg out =>
      { success := false, output := out,
        error := some (harnessImportMsg msg allowed), timeMs := elapsed }
    | .exc kind msg tb out =>
      { success := false, output := out, error := some (genericMsg kind msg tb),
        timeMs := elapsed }
  { base with output := addStderr base.output stderr }

/-- Result assembly of `ExecutionHarness.execute_sync_no_signal`
(harness.py lines 161-235). -/
def noSignalResult (allowed : List String) (o : NoSigOutcome)
    (stderr : List Char) (elapsed : Nat) : ExecutionResult :=
  let base : ExecutionResult :=
    match o with
    | .ok out => { success := true, output := out, error := none, timeMs := elapsed }
    | .importFail msg out =>
      { success := false, output := out,
        error := some (harnessImportMsg msg allowed), timeMs := elapsed }
    | .exc kind msg tb out =>
      { success := false, output := out, error := some (genericMsg kind msg tb),
        timeMs := elapsed }
  { base with output := addStderr base.output stderr }

/-- Result assembly of `CodeExecutor.execute`
(code_executor.py lines 39-112). -/
def executorResult (n : Nat) (allowedRepr : List Char) (o : RunOutcome)
    (stderr : List Char) (elapsed : Nat) : ExecutionResult :=
  let base : ExecutionResult :=
    match o with
    | .ok out => { success := true, output := out, error := none, timeMs := elapsed }
    | .timeoutSig out =>
      { success := false, output := out, error := some (executorTimeoutMsg n),
        timeMs := elapsed }
    | .importFail msg out =>
      { success := false, output := out,
        error := some (executorImportMsg msg allowedRepr), timeMs := elapsed }
    | .exc kind msg tb out =>
      { success := false, output := out, error := some (genericMsg kind msg tb),
        timeMs := elapsed }
  { base with output := addStderr base.output stderr }

/-- `ExecutionHarness.execute_async` (harness.py lines 58-83): the worker
result when it beat the deadline, otherwise the fixed timeout dictionary —
empty output, the timeout message, and exactly `timeout_seconds * 1000`
milliseconds. -/
def executeAsyncResult (n : Nat) (inner : Option ExecutionResult) :
    ExecutionResult :=
  match inner with
  | some r => r
  | none =>
    { success := false, output := [], error := some (harnessTimeoutMsg n),
      timeMs := n * 1000 }

/-! ## Helper lemmas -/

theorem dictGet_append (a b : List (String × PyVal)) (k : String) :
    dictGet (a ++ b) k =
      match dictGet b k with
      | some v => some v
      | none => dictGet a k := by
  induction a with
  | nil =>
    show dictGet b k = _
    cases dictGet b k <;> rfl
  | cons x a ih =>
    obtain ⟨k', v⟩ := x
    show (match dictGet (a ++ b) k with
          | some v' => some v'
          | none => if k' = k then some v else none) = _
    rw [ih]
    cases hb : dictGet b k <;> cases ha : dictGet a k <;> simp [dictGet, ha]

theorem dictGet_eq_none (d : List (String × PyVal)) (k : String)
    (h : ∀ v, (k, v) ∉ d) : dictGet d k = none := by
  induction d with
  | nil => rfl
  | cons x d ih =>
    obtain ⟨k', v⟩ := x
    have hk' : k' ≠ k := by
      intro he; exact h v (by simp [he])
    have : ∀ v, (k, v) ∉ d := by
      intro w hw; exact h w (List.mem_cons_of_mem _ hw)
    simp [dictGet, ih this, hk']

theorem mem_condBind {p : String × PyVal} {c : Bool}
    {l : List (String × PyVal)} (h : p ∈ condBind c l) : p ∈ l := by
  unfold condBind at h
  split at h
  · exact h
  · simp at h

theorem mem_bindPlan {p : String × PyVal} {h : Host}
    {plan : List (String × List (String × PyVal))}
    (hp : p ∈ bindPlan h plan) : ∃ mb ∈ plan, p ∈ mb.2 := by
  induction plan with
  | nil => simp [bindPlan] at hp
  | cons mb plan ih =>
    unfold bindPlan at hp
    simp only [List.foldr_cons] at hp
    rcases List.mem_append.mp hp with hl | hr
    · exact ⟨mb, by simp, mem_condBind hl⟩
    · obtain ⟨mb', hmb', hpmb'⟩ := ih hr
      exact ⟨mb', by simp [hmb'], hpmb'⟩

theorem mem_harnessModuleBindings {p : String × PyVal} {h : Host}
    {l : List String} (hp : p ∈ harnessModuleBindings h l) :
    ∃ m ∈ l, p ∈ harnessBlock h m := by
  induction l with
  | nil => simp [harnessModuleBindings] at hp
  | cons m l ih =>
    unfold harnessModuleBindings at hp
    simp only [List.foldr_cons] at hp
    rcases List.mem_append.mp hp with hl | hr
    · exact ⟨m, by simp, hl⟩
    · obtain ⟨m', hm', hpm'⟩ := ih hr
      exact ⟨m', by simp [hm'], hpm'⟩

/-- Values a successful import can contribute to the namespace. -/
def isModuleLike : PyVal → Bool
  | .module _ => true
  | .rawBuiltinsModule => true
  | .obj _ => true
  | _ => false

theorem isModuleLike_importValue (m : String) :
    isModuleLike (importValue m) = true := by
  unfold importValue
  split <;> rfl

theorem harnessBlock_moduleLike {p : String × PyVal} {h : Host} {m : String}
    (hp : p ∈ harnessBlock h m) : isModuleLike p.2 = true := by
  unfold harnessBlock at hp
  split at hp
  · rcases List.mem_cons.mp (mem_condBind hp) with rfl | hh
    · decide
    · rcases List.mem_singleton.mp hh with rfl
      decide
  · split at hp
    · rcases List.mem_cons.mp (mem_condBind hp) with rfl | hh
      · decide
      · rcases List.mem_singleton.mp hh with rfl
        decide
    · split at hp
      · rcases List.mem_cons.mp (mem_condBind hp) with rfl | hh
        · decide
        · rcases List.mem_singleton.mp hh with rfl
          decide
      · split at hp
        · rcases List.mem_singleton.mp (mem_condBind hp) with rfl
          decide
        · rcases List.mem_singleton.mp (mem_condBind hp) with rfl
          exact isModuleLike_importValue m

theorem harnessBlock_no_builtins_key {v : PyVal} {h : Host} {m : String}
    (himp : h.importable "__builtins__" = false)
    (hp : ("__builtins__", v) ∈ harnessBlock h m) : False := by
  unfold harnessBlock at hp
  split at hp
  · rcases List.mem_cons.mp (mem_condBind hp) with he | hh
    · exact absurd (show "__builtins__" = "pd" from congrArg Prod.fst he) (by decide)
    · have he := List.mem_singleton.mp hh
      exact absurd (show "__builtins__" = "pandas" from congrArg Prod.fst he) (by decide)
  · split at hp
    · rcases List.mem_cons.mp (mem_condBind hp) with he | hh
      · exact absurd (show "__builtins__" = "np" from congrArg Prod.fst he) (by decide)
      · have he := List.mem_singleton.mp hh
        exact absurd (show "__builtins__" = "numpy" from congrArg Prod.fst he) (by decide)
    · split at hp
      · rcases List.mem_cons.mp (mem_condBind hp) with he | hh
        · exact absurd (show "__builtins__" = "Path" from congrArg Prod.fst he) (by decide)
        · have he := List.mem_singleton.mp hh
          exact absurd (show "__builtins__" = "pathlib" from congrArg Prod.fst he) (by decide)
      · split at hp
        · have he := List.mem_singleton.mp (mem_condBind hp)
          exact absurd (show "__builtins__" = "asyncio" from congrArg Prod.fst he) (by decide)
        · unfold condBind at hp
          split at hp
          · rename_i himpm
            have he := List.mem_singleton.mp hp
            have hm : "__builtins__" = m := congrArg Prod.fst he
            rw [← hm] at himpm
            rw [himp] at himpm
            exact Bool.noConfusion himpm
          · exact absurd hp (List.not_mem_nil _)

theorem mem_insertD {p x : Nat × CatEntry} {l : List (Nat × CatEntry)} :
    p ∈ insertD x l ↔ p = x ∨ p ∈ l := by
  induction l with
  | nil => simp [insertD]
  | cons y ys ih =>
    unfold insertD
    split
    · simp only [List.mem_cons, ih]
      tauto
    · exact List.mem_cons

theorem pairwise_insertD (x : Nat × CatEntry) (l : List (Nat × CatEntry))
    (h : l.Pairwise (fun a b => b.1 ≤ a.1)) :
    (insertD x l).Pairwise (fun a b => b.1 ≤ a.1) := by
  induction l with
  | nil => simp [insertD]
  | cons y ys ih =>
    rcases List.pairwise_cons.mp h with ⟨hy, hys⟩
    unfold insertD
    split
    · rename_i hlt
      refine List.pairwise_cons.mpr ⟨?_, ih hys⟩
      intro z hz
      rcases mem_insertD.mp hz with rfl | hzys
      · exact Nat.le_of_lt hlt
      · exact hy z hzys
    · rename_i hge
      refine List.pairwise_cons.mpr ⟨?_, h⟩
      intro z hz
      rcases List.mem_cons.mp hz with rfl | hzys
      · exact Nat.le_of_not_lt hge
      · exact Nat.le_trans (hy z hzys) (Nat.le_of_not_lt hge)

theorem sortD_pairwise (l : List (Nat × CatEntry)) :
    (sortD l).Pairwise (fun a b => b.1 ≤ a.1) := by
  induction l with
  | nil => simp [sortD]
  | cons x xs ih => exact pairwise_insertD x (sortD xs) ih

theorem mem_sortD {p : Nat × CatEntry} {l : List (Nat × CatEntry)} :
    p ∈ sortD l ↔ p ∈ l := by
  induction l with
  | nil => simp [sortD]
  | cons x xs ih =>
    unfold sortD
    rw [mem_insertD, ih]
    simp

theorem filter_insertD (x : Nat × CatEntry) (l : List (Nat × CatEntry))
    (s : Nat) :
    (insertD x l).filter (fun p => p.1 == s) =
      if x.1 == s then x :: l.filter (fun p => p.1 == s)
      else l.filter (fun p => p.1 == s) := by
  induction l with
  | nil =>
    cases hx : x.1 == s <;> simp [insertD, List.filter_cons, hx]
  | cons y ys ih =>
    unfold insertD
    split
    · rename_i hlt
      cases hx : x.1 == s
      · cases hy : y.1 == s <;> simp [List.filter_cons, hy, ih, hx]
      · have hxs : x.1 = s := by simpa using hx
        have hy : (y.1 == s) = false := by
          have : y.1 ≠ s := by omega
          simpa using this
        simp [List.filter_cons, hy, ih, hx]
    · cases hx : x.1 == s <;> simp [List.filter_cons, hx]

theorem sortD_filter (l : List (Nat × CatEntry)) (s : Nat) :
    (sortD l).filter (fun p => p.1 == s) = l.filter (fun p => p.1 == s) := by
  induction l with
  | nil => rfl
  | cons x xs ih =>
    unfold sortD
    rw [filter_insertD, ih]
    cases hx : x.1 == s <;> simp [List.filter_cons, hx]

theorem ne_prim_of_moduleLike {v : PyVal} (hv : isModuleLike v = true)
    (s : String) : v ≠ PyVal.prim s := by
  cases v <;> simp_all [isModuleLike]

theorem dictGet_append_right_none {a b : List (String × PyVal)} {k : String}
    (hb : dictGet b k = none) : dictGet (a ++ b) k = dictGet a k := by
  rw [dictGet_append, hb]

/-! ## Claim theorems -/

/-- C3: regardless of the configured allow-list and of which modules the
host can import (the host fact used: no module named `__builtins__` is
importable), neither execution namespace binds the `eval`, `exec` or
`compile` primitive — nor do the curated builtins dictionaries — and the
`__builtins__` entry of each namespace is the corresponding curated
dictionary, which is not the raw builtins namespace object. -/
theorem c3_no_dynamic_eval_primitive (allowed : List String) (h : Host)
    (himp : h.importable "__builtins__" = false) :
    (∀ p ∈ harnessEnv allowed h,
        p.2 ≠ PyVal.prim "eval" ∧ p.2 ≠ PyVal.prim "exec"
          ∧ p.2 ≠ PyVal.prim "compile")
  ∧ (∀ p ∈ executorEnv h,
        p.2 ≠ PyVal.prim "eval" ∧ p.2 ≠ PyVal.prim "exec"
          ∧ p.2 ≠ PyVal.prim "compile")
  ∧ (∀ p ∈ safeBuiltinsHarness,
        p.2 ≠ PyVal.prim "eval" ∧ p.2 ≠ PyVal.prim "exec"
          ∧ p.2 ≠ PyVal.prim "compile")
  ∧ (∀ p ∈ safeBuiltinsExecutor,
        p.2 ≠ PyVal.prim "eval" ∧ p.2 ≠ PyVal.prim "exec"
          ∧ p.2 ≠ PyVal.prim "compile")
  ∧ dictGet (harnessEnv allowed h) "__builtins__"
      = some (.builtinsOf .harnessTable)
  ∧ dictGet (executorEnv h) "__builtins__"
      = some (.builtinsOf .executorTable)
  ∧ PyVal.builtinsOf .harnessTable ≠ PyVal.rawBuiltinsModule
  ∧ PyVal.builtinsOf .executorTable ≠ PyVal.rawBuiltinsModule := by
  have hMnone : dictGet (harnessModuleBindings h allowed) "__builtins__" = none := by
    apply dictGet_eq_none
    intro v hv
    obtain ⟨m, _, hpm⟩ := mem_harnessModuleBindings hv
    exact harnessBlock_no_builtins_key himp hpm
  have hPnone : dictGet (bindPlan h executorImportPlan) "__builtins__" = none := by
    apply dictGet_eq_none
    intro v hv
    obtain ⟨mb, hmb, hpmb⟩ := mem_bindPlan hv
    have hk : ∀ mb ∈ executorImportPlan, ∀ p ∈ mb.2, p.1 ≠ "__builtins__" := by
      decide
    exact hk mb hmb _ hpmb rfl
  refine ⟨?_, ?_, by decide, by decide, ?_, ?_, by decide, by decide⟩
  · intro p hp
    unfold harnessEnv at hp
    rcases List.mem_append.mp hp with h12 | h3
    · rcases List.mem_append.mp h12 with h1 | h2
      · rcases List.mem_cons.mp h1 with rfl | h1'
        · exact ⟨by decide, by decide, by decide⟩
        · rcases List.mem_singleton.mp h1' with rfl
          exact ⟨by decide, by decide, by decide⟩
      · obtain ⟨m, _, hpm⟩ := mem_harnessModuleBindings h2
        have hm := harnessBlock_moduleLike hpm
        exact ⟨ne_prim_of_moduleLike hm _, ne_prim_of_moduleLike hm _,
          ne_prim_of_moduleLike hm _⟩
    · rcases List.mem_cons.mp h3 with rfl | h3'
      · exact ⟨by decide, by decide, by decide⟩
      · rcases List.mem_singleton.mp h3' with rfl
        exact ⟨by decide, by decide, by decide⟩
  · intro p hp
    unfold executorEnv at hp
    rcases List.mem_append.mp hp with h12 | h3
    · rcases List.mem_append.mp h12 with h1 | h2
      · rcases List.mem_singleton.mp h1 with rfl
        exact ⟨by decide, by decide, by decide⟩
      · obtain ⟨mb, hmb, hpmb⟩ := mem_bindPlan h2
        have hall : ∀ mb ∈ executorImportPlan, ∀ p ∈ mb.2,
            isModuleLike p.2 = true := by decide
        have hm := hall mb hmb p hpmb
        exact ⟨ne_prim_of_moduleLike hm _, ne_prim_of_moduleLike hm _,
          ne_prim_of_moduleLike hm _⟩
    · rcases List.mem_cons.mp h3 with rfl | h3'
      · exact ⟨by decide, by decide, by decide⟩
      · rcases List.mem_cons.mp h3' with rfl | h3''
        · exact ⟨by decide, by decide, by decide⟩
        · rcases List.mem_singleton.mp h3'' with rfl
          exact ⟨by decide, by decide, by decide⟩
  · unfold harnessEnv
    rw [dictGet_append_right_none (by rfl), dictGet_append_right_none hMnone]
    rfl
  · unfold executorEnv
    rw [dictGet_append_right_none (by rfl), dictGet_append_right_none hPnone]
    rfl

/-- C3 witness: a concrete allow-list that even names `builtins` and
`eval`, against a host that can import everything except a module named
`__builtins__`: the `__builtins__` entry is still the curated harness
dictionary, and a sample module binding is not an eval primitive. -/
theorem c3_witness :
    dictGet (harnessEnv ["json", "builtins", "eval"]
        ⟨fun s => !(s == "__builtins__"), true⟩) "__builtins__"
      = some (.builtinsOf .harnessTable)
  ∧ (("json", PyVal.module "json") ∈ harnessEnv ["json", "builtins", "eval"]
        ⟨fun s => !(s == "__builtins__"), true⟩
      ∧ PyVal.module "json" ≠ PyVal.prim "eval") := by
  have h := c3_no_dynamic_eval_primitive ["json", "builtins", "eval"]
    ⟨fun s => !(s == "__builtins__"), true⟩ (by decide)
  have hm : ("json", PyVal.module "json") ∈ harnessEnv ["json", "builtins", "eval"]
      ⟨fun s => !(s == "__builtins__"), true⟩ := by decide
  exact ⟨h.2.2.2.2.1, hm, (h.1 ("json", PyVal.module "json") hm).1⟩

/-- C8: `get_tool_summary` fails with ToolNotFound when the unit file is
absent; when the file exists and its first 500 characters hold no complete
documentation block, the description is the title-cased tool name with
underscores rendered as spaces; when a documentation block is found, the
description is its first non-blank line, stripped. -/
theorem c8_get_tool_summary_description (root : List String)
    (fs : List (List String × List Char)) (server tool : String) :
    (fs.lookup (resolveComps (toolPath root server tool)) = none →
      getToolSummary root fs server tool = .err .toolNotFound)
  ∧ (∀ content, fs.lookup (resolveComps (toolPath root server tool)) = some content →
      extractDoc (content.take 500) = none →
      getToolSummary root fs server tool =
        .ok ⟨tool, server, pyTitle (underscoresToSpaces tool.toList)⟩)
  ∧ (∀ content g, fs.lookup (resolveComps (toolPath root server tool)) = some content →
      extractDoc (content.take 500) = some g →
      getToolSummary root fs server tool =
        .ok ⟨tool, server, firstNonBlankStripped (splitOnChar '\n' (pyStrip g))⟩) := by
  refine ⟨?_, ?_, ?_⟩
  · intro hnone
    unfold getToolSummary
    rw [hnone]
  · intro content hc hd
    have h1 : getToolSummary root fs server tool =
        .ok ⟨tool, server, summaryDescription tool content⟩ := by
      unfold getToolSummary
      rw [hc]
    have h2 : summaryDescription tool content
        = pyTitle (underscoresToSpaces tool.toList) := by
      unfold summaryDescription
      rw [hd]
    rw [h1, h2]
  · intro content g hc hd
    have h1 : getToolSummary root fs server tool =
        .ok ⟨tool, server, summaryDescription tool content⟩ := by
      unfold getToolSummary
      rw [hc]
    have h2 : summaryDescription tool content
        = firstNonBlankStripped (splitOnChar '\n' (pyStrip g)) := by
      unfold summaryDescription
      rw [hd]
    rw [h1, h2]

/-- Catalog filesystem used to witness C8. -/
def c8fs : List (List String × List Char) :=
  [(["servers", "weather", "get_current_weather.py"],
    ("\"\"\"Get current weather for a location.\n\nUses an external API.\n\"\"\"\ndef run():\n    pass\n").toList),
   (["servers", "rag", "add_documents.py"],
    ("def run():\n    pass\n").toList)]

/-- C8 witness: a documented unit yields its docstring's first non-blank
line, an undocumented unit yields the title-cased tool name, and a
missing unit fails with ToolNotFound. -/
theorem c8_witness :
    getToolSummary ["servers"] c8fs "weather" "get_current_weather"
      = .ok ⟨"get_current_weather", "weather",
          ("Get current weather for a location.").toList⟩
  ∧ getToolSummary ["servers"] c8fs "rag" "add_documents"
      = .ok ⟨"add_documents", "rag", ("Add Documents").toList⟩
  ∧ getToolSummary ["servers"] c8fs "rag" "missing_tool"
      = .err .toolNotFound := by
  refine ⟨?_, ?_, ?_⟩
  · have h := (c8_get_tool_summary_description ["servers"] c8fs
      "weather" "get_current_weather").2.2
      (("\"\"\"Get current weather for a location.\n\nUses an external API.\n\"\"\"\ndef run():\n    pass\n").toList)
      (("Get current weather for a location.\n\nUses an external API.\n").toList)
      (by decide) (by decide)
    rw [h]
    decide
  · have h := (c8_get_tool_summary_description ["servers"] c8fs
      "rag" "add_documents").2.1
      (("def run():\n    pass\n").toList) (by decide) (by decide)
    rw [h]
    decide
  · exact (c8_get_tool_summary_description ["servers"] c8fs
      "rag" "missing_tool").1 (by decide)

/-- C10: `get_tool_summary` reads only the first 500 characters, so a unit
file whose documentation block closes past that point (no complete block
within the first 500 characters even though the whole file holds one) gets
the title-cased tool name as its description — no line of the actual
documentation. -/
theorem c10_truncated_docstring_falls_back_to_title (root : List String)
    (fs : List (List String × List Char)) (server tool : String)
    (content g : List Char)
    (hc : fs.lookup (resolveComps (toolPath root server tool)) = some content)
    (hfull : extractDoc content = some g)
    (htrunc : extractDoc (content.take 500) = none) :
    getToolSummary root fs server tool =
      .ok ⟨tool, server, pyTitle (underscoresToSpaces tool.toList)⟩ := by
  have h1 : getToolSummary root fs server tool =
      .ok ⟨tool, server, summaryDescription tool content⟩ := by
    unfold getToolSummary
    rw [hc]
  have h2 : summaryDescription tool content
      = pyTitle (underscoresToSpaces tool.toList) := by
    unfold summaryDescription
    rw [htrunc]
  rw [h1, h2]

/-- A unit file whose documentation block spans more than 500 characters:
the closing delimiter sits at offset 503. -/
def c10content : List Char :=
  '"' :: '"' :: '"' :: (List.replicate 500 'x' ++ ['"', '"', '"'])

/-- C10 witness: the oversized documentation block is ignored and the
title-cased tool name is returned. -/
theorem c10_witness :
    getToolSummary ["servers"] [(["servers", "rag", "add_documents.py"], c10content)]
        "rag" "add_documents"
      = .ok ⟨"add_documents", "rag", ("Add Documents").toList⟩ := by
  have h := c10_truncated_docstring_falls_back_to_title ["servers"]
    [(["servers", "rag", "add_documents.py"], c10content)] "rag" "add_documents"
    c10content (List.replicate 500 'x') (by decide) (by decide) (by decide)
  rw [h]
  decide

/-- C9: the keyword fallback ranking returns at most `top_k` results,
sorted by descending score; every result is a catalog entry whose score is
positive and equals the specified keyword score (10 on a lowercase phrase
match, otherwise the overlap between the query's and the entry text's
whitespace-delimited term sets); and ties keep catalog scan order — the
ranked list restricted to any one score is exactly the scan-ordered
candidate list restricted to that score, so repeated searches over an
unchanged catalog return the same ranking. -/
theorem c9_keyword_search_ranking (entries : List CatEntry) (q : List Char)
    (k : Nat) :
    (keywordSearch entries q k).length ≤ k
  ∧ (keywordSearch entries q k).Pairwise (fun a b => b.1 ≤ a.1)
  ∧ (∀ p ∈ keywordSearch entries q k,
      0 < p.1 ∧ p.1 = kscore q p.2 ∧ p.2 ∈ entries)
  ∧ (∀ s, (keywordSearchAll entries q).filter (fun p => p.1 == s)
      = (keywordCollect entries q).filter (fun p => p.1 == s))
  ∧ keywordSearch entries q k = (keywordSearchAll entries q).take k := by
  refine ⟨?_, ?_, ?_, ?_, rfl⟩
  · show ((keywordSearchAll entries q).take k).length ≤ k
    rw [List.length_take]
    exact min_le_left _ _
  · exact (sortD_pairwise _).sublist (List.take_sublist _ _)
  · intro p hp
    have hp1 : p ∈ keywordSearchAll entries q := List.take_subset _ _ hp
    have hp2 : p ∈ keywordCollect entries q := mem_sortD.mp hp1
    obtain ⟨e, he, hfe⟩ := List.mem_filterMap.mp hp2
    by_cases h0 : 0 < kscore q e
    · rw [if_pos h0] at hfe
      obtain rfl := Option.some.inj hfe
      exact ⟨h0, rfl, he⟩
    · rw [if_neg h0] at hfe
      exact absurd hfe (Option.noConfusion)
  · intro s
    exact sortD_filter _ s

/-- Catalog scan used to witness C9. -/
def c9entries : List CatEntry :=
  [⟨"get_current_weather", "weather", ("Get current weather for a location.").toList⟩,
   ⟨"add_documents", "rag", ("Add documents to the index.").toList⟩,
   ⟨"get_forecast", "weather", ("Get weather forecast.").toList⟩]

/-- C9 witness: a concrete catalog and query — the phrase-matching entry
scores 10, is returned within the cap, and the tie between the two
score-10 entries keeps scan order. -/
theorem c9_witness :
    (keywordSearch c9entries ("weather").toList 2).length ≤ 2
  ∧ (0 < (10, CatEntry.mk "get_current_weather" "weather"
        (("Get current weather for a location.").toList)).1
      ∧ (10, CatEntry.mk "get_current_weather" "weather"
          (("Get current weather for a location.").toList)).1
        = kscore (("weather").toList)
            (10, CatEntry.mk "get_current_weather" "weather"
              (("Get current weather for a location.").toList)).2
      ∧ (10, CatEntry.mk "get_current_weather" "weather"
          (("Get current weather for a location.").toList)).2 ∈ c9entries)
  ∧ (keywordSearchAll c9entries (("weather").toList)).filter (fun p => p.1 == 10)
      = (keywordCollect c9entries (("weather").toList)).filter (fun p => p.1 == 10) := by
  have h := c9_keyword_search_ranking c9entries (("weather").toList) 2
  exact ⟨h.1,
    h.2.2.1 (10, CatEntry.mk "get_current_weather" "weather"
      (("Get current weather for a location.").toList)) (by decide),
    h.2.2.2.1 10⟩

/-- C1: the claim asserts the workspace gate holds for the open binding of
EVERY execution's symbol table.  The harness does bind the gated
`_safe_open`, which denies the `../../etc/passwd` traversal and touches
nothing; but `CodeExecutor._get_safe_builtins` binds the raw builtin
`open` (its own comment reads "validated to workspace/ only"), and through
that binding the same traversal resolves outside the workspace root and
is opened successfully. -/
theorem c1_executor_open_binding_is_unrestricted :
    dictGet safeBuiltinsExecutor "open" = some .rawOpenV
  ∧ dictGet safeBuiltinsHarness "open" = some .safeOpenV
  ∧ resolveFrom ["home", "workspace"] "../../etc/passwd" = ["etc", "passwd"]
  ∧ (["home", "workspace"].isPrefixOf ["etc", "passwd"]) = false
  ∧ rawOpen [["etc", "passwd"]] ["home", "workspace"] "../../etc/passwd" "r"
      = (.opened ["etc", "passwd"], [["etc", "passwd"]])
  ∧ safeOpen ["home", "workspace"] [["etc", "passwd"]] ["home", "workspace"]
      "../../etc/passwd" "r"
      = (.permissionDenied, [["etc", "passwd"]]) := by
  decide

/-- C2: `get_tool_definition` performs no containment check: with server
name `../app` it resolves outside the catalog root and returns the full
text of `src/app/config.py` instead of failing.  `read_file` does reject
the plain `../` traversal, but its string-prefix check accepts any
sibling directory whose absolute path extends the root's string (here
`serversX`), so its containment is also not the claimed one. -/
theorem c2_tool_definition_escapes_catalog_root :
    getToolDefinition ["repo", "src", "servers"]
        [(["repo", "src", "app", "config.py"], "OPENAI_API_KEY = secret".toList),
         (["repo", "src", "serversX", "f.py"], "sibling".toList)]
        "../app" "config" = .ok ("OPENAI_API_KEY = secret".toList)
  ∧ (["repo", "src", "servers"].isPrefixOf
      (resolveComps (toolPath ["repo", "src", "servers"] "../app" "config"))) = false
  ∧ readFile ["repo", "src", "servers"]
        [(["repo", "src", "app", "config.py"], "OPENAI_API_KEY = secret".toList),
         (["repo", "src", "serversX", "f.py"], "sibling".toList)]
        "../serversX/f.py" = .ok ("sibling".toList)
  ∧ (["repo", "src", "servers"].isPrefixOf
      (resolveComps (["repo", "src", "servers"] ++ pySplit "../serversX/f.py"))) = false
  ∧ readFile ["repo", "src", "servers"]
        [(["repo", "src", "app", "config.py"], "OPENAI_API_KEY = secret".toList),
         (["repo", "src", "serversX", "f.py"], "sibling".toList)]
        "../app/config.py" = .err .discoveryErr := by
  decide

/-- C5 counterexample: on the `execute_async` timeout path the reported
output is the empty string, not the output captured up to the deadline —
a run that had printed text before timing out still reports `""`. -/
theorem c5_counterexample_partial_output_discarded :
    executeAsyncResult 30 none =
      { success := false, output := [],
        error := some (harnessTimeoutMsg 30), timeMs := 30000 }
  ∧ (executeAsyncResult 30 none).output ≠ ("partial\n").toList := by
  exact ⟨rfl, by decide⟩

/-- C6 counterexample: preparing an execution environment mutates
process-global interpreter state — starting from empty `sys.path` and
`sys.modules`, `CodeExecutor._prepare_environment` registers the
`mcp_client_wrapper` module and extends the module search path. -/
theorem c6_counterexample_prepare_env_mutates_globals :
    (executorPrepareEnv ⟨fun _ => true, true⟩ ⟨[], []⟩).2
      ≠ (⟨[], []⟩ : PyGlobal) := by
  decide

/-- C4 counterexample: the timeout branch of `CodeExecutor.execute`
formats its message as `"Execution timeout after {N}s"`, which does not
begin with the claimed literal prefix `"Execution timeout after {N}
seconds"` (shown at N = 30). -/
theorem c4_counterexample_executor_timeout_prefix :
    (executorResult 30 [] (.timeoutSig []) [] 123).error
      = some (executorTimeoutMsg 30)
  ∧ ¬ (("Execution timeout after 30 seconds").toList <+: executorTimeoutMsg 30) := by
  exact ⟨rfl, by decide⟩

/-- C4 amended: every failure result's error text begins with the literal
prefix determined by its failure class — `"Execution timeout after {N}
seconds"` in the harness paths but `"Execution timeout after {N}s"` in
the `CodeExecutor` path for a timeout, `"Import error: "` for a
restricted-import failure, and `"{FailureKind}: "` for any other uncaught
failure — across all four execution paths. -/
theorem c4_failure_error_prefixes (n : Nat) (allowed : List String)
    (allowedRepr out msg tb kind stderr : List Char) (elapsed : Nat) :
    ((harnessSyncResult n allowed (.timeoutSig out) stderr elapsed).error.getD []
        = harnessTimeoutMsg n
      ∧ harnessTimeoutMsg n <+: harnessTimeoutMsg n)
  ∧ ("Import error: ").toList <+:
      (harnessSyncResult n allowed (.importFail msg out) stderr elapsed).error.getD []
  ∧ kind ++ (": ").toList <+:
      (harnessSyncResult n allowed (.exc kind msg tb out) stderr elapsed).error.getD []
  ∧ ("Import error: ").toList <+:
      (noSignalResult allowed (.importFail msg out) stderr elapsed).error.getD []
  ∧ kind ++ (": ").toList <+:
      (noSignalResult allowed (.exc kind msg tb out) stderr elapsed).error.getD []
  ∧ (executorResult n allowedRepr (.timeoutSig out) stderr elapsed).error.getD []
      = executorTimeoutMsg n
  ∧ ("Import error: ").toList <+:
      (executorResult n allowedRepr (.importFail msg out) stderr elapsed).error.getD []
  ∧ kind ++ (": ").toList <+:
      (executorResult n allowedRepr (.exc kind msg tb out) stderr elapsed).error.getD []
  ∧ (executeAsyncResult n none).error.getD [] = harnessTimeoutMsg n := by
  refine ⟨⟨rfl, List.prefix_refl _⟩, ?_, ?_, ?_, ?_, rfl, ?_, ?_, rfl⟩
  · show ("Import error: ").toList <+: harnessImportMsg msg allowed
    unfold harnessImportMsg
    rw [List.append_assoc, List.append_assoc]
    exact List.prefix_append _ _
  · show kind ++ (": ").toList <+: genericMsg kind msg tb
    unfold genericMsg
    rw [List.append_assoc]
    exact List.prefix_append _ _
  · show ("Import error: ").toList <+: harnessImportMsg msg allowed
    unfold harnessImportMsg
    rw [List.append_assoc, List.append_assoc]
    exact List.prefix_append _ _
  · show kind ++ (": ").toList <+: genericMsg kind msg tb
    unfold genericMsg
    rw [List.append_assoc]
    exact List.prefix_append _ _
  · show ("Import error: ").toList <+: executorImportMsg msg allowedRepr
    unfold executorImportMsg
    rw [List.append_assoc, List.append_assoc]
    exact List.prefix_append _ _
  · show kind ++ (": ").toList <+: genericMsg kind msg tb
    unfold genericMsg
    rw [List.append_assoc]
    exact List.prefix_append _ _

/-- C5 amended: on a timeout, `success = false` and the error starts with
the timeout wording in every path; in the signal-based synchronous paths
the output captured so far is preserved (it is a prefix of the reported
output, which only ever gains the stderr marker) and the elapsed
milliseconds are the measured wall-clock value; but in the
`execute_async` thread-pool path the captured output is discarded — the
result is exactly empty output with `timeout_seconds * 1000`
milliseconds. -/
theorem c5_timeout_result_shape (n : Nat) (allowed : List String)
    (allowedRepr captured stderr : List Char) (elapsed : Nat) :
    executeAsyncResult n none =
      { success := false, output := [],
        error := some (harnessTimeoutMsg n), timeMs := n * 1000 }
  ∧ (harnessSyncResult n allowed (.timeoutSig captured) stderr elapsed).success = false
  ∧ captured <+: (harnessSyncResult n allowed (.timeoutSig captured) stderr elapsed).output
  ∧ (harnessSyncResult n allowed (.timeoutSig captured) stderr elapsed).error
      = some (harnessTimeoutMsg n)
  ∧ (harnessSyncResult n allowed (.timeoutSig captured) stderr elapsed).timeMs = elapsed
  ∧ (executorResult n allowedRepr (.timeoutSig captured) stderr elapsed).success = false
  ∧ captured <+: (executorResult n allowedRepr (.timeoutSig captured) stderr elapsed).output
  ∧ (executorResult n allowedRepr (.timeoutSig captured) stderr elapsed).error
      = some (executorTimeoutMsg n)
  ∧ (executorResult n allowedRepr (.timeoutSig captured) stderr elapsed).timeMs
      = elapsed := by
  refine ⟨rfl, rfl, ?_, rfl, rfl, rfl, ?_, rfl, rfl⟩
  · show captured <+: addStderr captured stderr
    unfold addStderr
    split
    · exact List.prefix_refl _
    · rw [List.append_assoc]
      exact List.prefix_append _ _
  · show captured <+: addStderr captured stderr
    unfold addStderr
    split
    · exact List.prefix_refl _
    · rw [List.append_assoc]
      exact List.prefix_append _ _

/-- C6 amended: the symbol table built for an execution is fresh — it is a
function of the configuration and the host alone, independent of the
mutable interpreter state and of any prior execution's namespace — but
building it is not side-effect free: it extends the process-global module
search path when the servers directory is absent from it, and the
`CodeExecutor` variant registers a wrapper module in the process-global
loaded-modules registry. -/
theorem c6_symbol_table_fresh_but_globals_mutated (allowed : List String)
    (h : Host) (g g' : PyGlobal) :
    (harnessPrepareEnv allowed h g).1 = (harnessPrepareEnv allowed h g').1
  ∧ (executorPrepareEnv h g).1 = (executorPrepareEnv h g').1
  ∧ (executorPrepareEnv ⟨fun _ => true, true⟩ ⟨[], []⟩).2 ≠ (⟨[], []⟩ : PyGlobal)
  ∧ (harnessPrepareEnv allowed ⟨fun _ => true, true⟩ ⟨[], []⟩).2
      ≠ (⟨[], []⟩ : PyGlobal) := by
  refine ⟨rfl, rfl, by decide, ?_⟩
  intro he
  have := congrArg PyGlobal.sysPath he
  simp [harnessPrepareEnv, serversDirStr] at this

/-- C7: every `ExecutionResult` produced by any of the four execution
paths — normal completion, script failure, import failure, or timeout —
has `success = true` exactly when its failure detail is absent. -/
theorem c7_success_iff_no_error (n : Nat) (allowed : List String)
    (allowedRepr stderr : List Char) (elapsed : Nat) (o : RunOutcome)
    (o' : NoSigOutcome) :
    ((harnessSyncResult n allowed o stderr elapsed).success = true
      ↔ (harnessSyncResult n allowed o stderr elapsed).error = none)
  ∧ ((noSignalResult allowed o' stderr elapsed).success = true
      ↔ (noSignalResult allowed o' stderr elapsed).error = none)
  ∧ ((executorResult n allowedRepr o stderr elapsed).success = true
      ↔ (executorResult n allowedRepr o stderr elapsed).error = none)
  ∧ ((executeAsyncResult n none).success = true
      ↔ (executeAsyncResult n none).error = none)
  ∧ ((executeAsyncResult n (some (noSignalResult allowed o' stderr elapsed))).success = true
      ↔ (executeAsyncResult n
          (some (noSignalResult allowed o' stderr elapsed))).error = none) := by
  refine ⟨?_, ?_, ?_, by simp [executeAsyncResult], ?_⟩
  · cases o <;> simp [harnessSyncResult]
  · cases o' <;> simp [noSignalResult]
  · cases o <;> simp [executorResult]
  · cases o' <;> simp [executeAsyncResult, noSignalResult]
